import Mathlib

/-!
# Worker Core (WorkerAgent) — shallow embedding and verification

This file embeds the background-job worker coordinator of
`src/src/agents/api/core/src/agents/backend/worker-agent.ts` (class
`WorkerAgent`) and proves the frozen claims about it.

Modelling conventions:
* JavaScript numbers that the worker only ever combines with `Math.floor`,
  `Math.min`, `Math.max`, integer addition and doubling are modelled as `Nat`
  (so `Math.floor(x * 0.7)` becomes `x * 7 / 10`, `Math.floor(x * 0.9)`
  becomes `x * 9 / 10`, both with `Nat` division).
* `Date.now()` is a `Nat` parameter `now`; `Math.random()`-derived jitter is a
  `Nat` parameter constrained to `< 100` where the claims require it.
* Every `await`ed external call (queue `ack`/`requeue`, idempotency
  `acquire`/`setResult`, the handler) may reject in the source; the
  per-attempt environment `ProcEnv` fixes each call's outcome.  A call that
  is made is recorded in the effect trace even when it throws; the effects
  that the source would have executed after the throwing `await` are absent
  from the trace, exactly as in the `try`/`catch` structure of `process` and
  `onProcessError`.
* The idempotency store is a list of claimed keys: `acquire` returns `true`
  and inserts the key iff it was absent (`IIdempotencyStore.acquire` doc:
  "Returns true if the key was newly created"); `setResult` does not change
  membership.  TTL expiry is not modelled (the claims live inside one TTL
  window).
* `message.payload`, `headers` and `traceId` are inert in the worker; a
  `String` payload stands for the opaque payload, the other two are omitted.
-/

namespace WorkerCore

/-- Configuration of `WorkerAgent` (`WorkerAgentOptions` merged with the
constructor defaults, worker-agent.ts lines 92–103). -/
structure WorkerOpts where
  name : String
  maxBatchSize : Nat := 10
  maxConcurrent : Nat := 10
  visibilityTimeoutMs : Nat := 30000
  requeueDelayMs : Nat := 2000
  maxAttempts : Nat := 5
  idempotencyTtlSec : Nat := 86400
  pollIntervalMs : Nat := 500
  circuitFailureThreshold : Nat := 20
  circuitResetMs : Nat := 15000
  deriving Repr, DecidableEq

/-- The `WorkerMessage` shape (worker-agent.ts lines 53–60).  `attempts` is optional in
the source (`attempts?: number`); the worker reads it as `attempts ?? 0`. -/
structure Msg where
  id : String
  type : String := ""
  payload : String := ""
  attempts : Option Nat := none
  deriving Repr, DecidableEq

/-- The value `message.attempts ?? 0`. -/
def Msg.attemptCount (m : Msg) : Nat := m.attempts.getD 0

/-- The worker's private mutable fields (worker-agent.ts lines 78–83). -/
structure WState where
  running : Bool := false
  inFlight : Nat := 0
  backoffMs : Nat := 0
  lastFailureAt : Nat := 0
  consecutiveFailures : Nat := 0
  circuitOpen : Bool := false
  deriving Repr, DecidableEq

/-- Which awaited call rejected (the `err` flowing into `catch` /
`onProcessError`). -/
inductive PErr
  | handlerE
  | acquireE
  | ackE
  | setResultE
  deriving Repr, DecidableEq

/-- Idempotency outcome recorded via `setResult`. -/
inductive Status
  | success
  | failed
  deriving Repr, DecidableEq

/-- One observable interaction of a processing attempt with its
collaborators: calls on the queue, the idempotency store, the handler, and
emitted events.  A trace entry records that the call was *made*, with the
arguments the source passes. -/
inductive Effect
  | acquire (key : String) (ttlSec : Nat)
  | handlerCall (m : Msg)
  | ack (m : Msg)
  | setResult (key : String) (st : Status)
  | requeue (m : Msg) (delayMs : Nat)
  | emitProcessed (m : Msg)
  | emitDeadLetter (m : Msg) (e : PErr) (attempts : Nat)
  deriving Repr, DecidableEq

/-- Per-attempt nondeterminism: the outcome of each awaited external call
(`true` = the promise resolves, `false` = it rejects), the jitter drawn in
`exponentialBackoff`, and the wall clock read by `recordFailure`. -/
structure ProcEnv where
  acquireThrows : Bool := false
  handlerOk : Bool := true
  dupAckOk : Bool := true
  okAckOk : Bool := true
  setResultOk : Bool := true
  dlqAckOk : Bool := true
  dlqSetResultOk : Bool := true
  jitter : Nat := 0
  now : Nat := 0
  deriving Repr, DecidableEq

/-- The idempotency key `` `${this.opts.name}:${message.id}` ``
(worker-agent.ts line 194). -/
def idKey (opts : WorkerOpts) (m : Msg) : String := opts.name ++ ":" ++ m.id

/-- Function `exponentialBackoff` (worker-agent.ts lines 258–261):
`Math.min(60_000, Math.floor(baseMs * Math.pow(2, Math.min(6, attempts - 1))) + jitter)`
with `jitter = Math.floor(Math.random() * 100)`. -/
def exponentialBackoff (attempts baseMs jitter : Nat) : Nat :=
  min 60000 (baseMs * 2 ^ (min 6 (attempts - 1)) + jitter)

/-- Function `recordFailure` (worker-agent.ts lines 245–256): stamp `lastFailureAt`,
bump `consecutiveFailures`, grow `backoffMs` by 100 capped at 10000, and open
the circuit once the threshold is reached. -/
def recordFailure (opts : WorkerOpts) (now : Nat) (s : WState) : WState :=
  let s1 : WState :=
    { s with lastFailureAt := now
             consecutiveFailures := s.consecutiveFailures + 1
             backoffMs := min 10000 (s.backoffMs + 100) }
  if s1.consecutiveFailures ≥ opts.circuitFailureThreshold then
    { s1 with circuitOpen := true }
  else s1

/-- Function `onProcessError` (worker-agent.ts lines 224–243).  Returns the state after
the failure bookkeeping together with the effect trace of the calls made.
When `attempts ≥ maxAttempts` the source acks, records `failed` (only when an
idempotency store is injected — optional chaining), and emits the
`dead-letter` event; otherwise it requeues `{...message, attempts}` with the
exponential-backoff delay.  A rejecting `await` cuts the trace short (the
rejection escapes `onProcessError`; the caller's `finally`/`.catch` swallow
it without further queue calls). -/
def onProcessError (opts : WorkerOpts) (hasIdem : Bool) (env : ProcEnv)
    (m : Msg) (e : PErr) (s : WState) : WState × List Effect :=
  let attempts := m.attemptCount + 1
  let s1 := recordFailure opts env.now s
  if attempts ≥ opts.maxAttempts then
    if env.dlqAckOk then
      if hasIdem then
        if env.dlqSetResultOk then
          (s1, [.ack m, .setResult (idKey opts m) .failed,
                .emitDeadLetter m e attempts])
        else
          (s1, [.ack m, .setResult (idKey opts m) .failed])
      else
        (s1, [.ack m, .emitDeadLetter m e attempts])
    else
      (s1, [.ack m])
  else
    (s1, [.requeue { m with attempts := some attempts }
            (exponentialBackoff attempts opts.requeueDelayMs env.jitter)])

/-- The success-path state update (worker-agent.ts lines 211–212):
`consecutiveFailures = Math.max(0, consecutiveFailures - 1)` and
`backoffMs = Math.max(0, Math.floor(backoffMs * 0.7))`. -/
def successState (s : WState) : WState :=
  { s with consecutiveFailures := s.consecutiveFailures - 1
           backoffMs := s.backoffMs * 7 / 10 }

/-- Lines 207–217 of `process`: invoke the handler, then ack, then (when a
store is injected) record success, then apply the success bookkeeping and
emit `processed`; any rejection routes to `onProcessError`. -/
def handlerPhase (opts : WorkerOpts) (hasIdem : Bool) (env : ProcEnv)
    (m : Msg) (s : WState) : WState × List Effect :=
  if env.handlerOk then
    if env.okAckOk then
      if hasIdem then
        if env.setResultOk then
          (successState s,
           [.handlerCall m, .ack m, .setResult (idKey opts m) .success,
            .emitProcessed m])
        else
          let r := onProcessError opts hasIdem env m .setResultE s
          (r.1, .handlerCall m :: .ack m ::
                .setResult (idKey opts m) .success :: r.2)
      else
        (successState s, [.handlerCall m, .ack m, .emitProcessed m])
    else
      let r := onProcessError opts hasIdem env m .ackE s
      (r.1, .handlerCall m :: .ack m :: r.2)
  else
    let r := onProcessError opts hasIdem env m .handlerE s
    (r.1, .handlerCall m :: r.2)

/-- The body of `process` between the `inFlight` increment and the `finally`
(worker-agent.ts lines 196–217): the idempotency guard followed by the
handler phase.  `store` is the set of keys the idempotency store holds;
`hasIdem` is whether `deps.idempotency` was injected. -/
def processBody (opts : WorkerOpts) (hasIdem : Bool) (env : ProcEnv)
    (m : Msg) (s : WState) (store : List String) :
    WState × List String × List Effect :=
  let key := idKey opts m
  if hasIdem then
    if env.acquireThrows then
      let r := onProcessError opts hasIdem env m .acquireE s
      (r.1, store, .acquire key opts.idempotencyTtlSec :: r.2)
    else if store.contains key then
      -- acquire returned false: duplicate — ack and return early
      if env.dupAckOk then
        (s, store, [.acquire key opts.idempotencyTtlSec, .ack m])
      else
        let r := onProcessError opts hasIdem env m .ackE s
        (r.1, store,
         .acquire key opts.idempotencyTtlSec :: .ack m :: r.2)
    else
      let r := handlerPhase opts hasIdem env m s
      (r.1, key :: store, .acquire key opts.idempotencyTtlSec :: r.2)
  else
    let r := handlerPhase opts hasIdem env m s
    (r.1, store, r.2)

/-- Function `process` (worker-agent.ts lines 191–222): `inFlight++`, the guarded body,
and the `finally` block's `inFlight--` which runs on every exit path. -/
def process (opts : WorkerOpts) (hasIdem : Bool) (env : ProcEnv)
    (m : Msg) (s : WState) (store : List String) :
    WState × List String × List Effect :=
  let s1 : WState := { s with inFlight := s.inFlight + 1 }
  let r := processBody opts hasIdem env m s1 store
  ({ r.1 with inFlight := r.1.inFlight - 1 }, r.2.1, r.2.2)

/-- The `Promise.all(messages.map(async m => ({ m, s: await score(m) })))`
step of `score` (worker-agent.ts line 182): every message is scored; if any
scoring call rejects, the whole step rejects. -/
def scoreAll (f : Msg → Except Unit Int) : List Msg →
    Except Unit (List (Msg × Int))
  | [] => .ok []
  | m :: rest =>
    match f m, scoreAll f rest with
    | .error e, _ => .error e
    | .ok _, .error e => .error e
    | .ok v, .ok tail => .ok ((m, v) :: tail)

/-- Function `score` (worker-agent.ts lines 179–189): with no scorer return the batch
unchanged; otherwise score every message and sort descending by score
(`withScore.sort((a, b) => b.s - a.s)`); if any scoring call rejects, warn
and return the batch in original order.  The `Bool` is whether the
FIFO-fallback warning was logged. -/
def scoreBatch (scorer : Option (Msg → Except Unit Int)) (msgs : List Msg) :
    List Msg × Bool :=
  match scorer with
  | none => (msgs, false)
  | some f =>
    match scoreAll f msgs with
    | .error _ => (msgs, true)
    | .ok withScore =>
      (((withScore.mergeSort (fun a b => decide (b.2 ≤ a.2))).map Prod.fst),
       false)

/-- Trace counting helpers. -/
def isAckOrRequeue : Effect → Bool
  | .ack _ => true
  | .requeue _ _ => true
  | _ => false

def isAcquire : Effect → Bool
  | .acquire _ _ => true
  | _ => false

def isSetResult : Effect → Bool
  | .setResult _ _ => true
  | _ => false

def isHandlerCall : Effect → Bool
  | .handlerCall _ => true
  | _ => false

def isRequeue : Effect → Bool
  | .requeue _ _ => true
  | _ => false

def isAck : Effect → Bool
  | .ack _ => true
  | _ => false

def isProcessedEvent : Effect → Bool
  | .emitProcessed _ => true
  | _ => false

def isDeadLetterEvent : Effect → Bool
  | .emitDeadLetter _ _ _ => true
  | _ => false


/-- The decision one iteration of `loop` (worker-agent.ts lines 126–152)
makes before any message is dispatched: sleep because the circuit is open,
sleep because of backpressure, or perform exactly one `queue.pull` with the
computed batch size and wait hint. -/
inductive LoopAction
  | sleepCircuit
  | sleepBackpressure
  | pull (batchSize : Nat) (waitMs : Nat)
  deriving Repr, DecidableEq

/-- Lines 139–152 of `loop`: the backpressure gate
(`inFlight >= maxConcurrent` sleeps) followed by the single pull of the
iteration with `batchSize = min(maxBatchSize, max(1, maxConcurrent -
inFlight))` and `pullWait = max(50, pollIntervalMs)`. -/
def gateAfterCircuit (opts : WorkerOpts) (s : WState) : WState × LoopAction :=
  if s.inFlight ≥ opts.maxConcurrent then (s, .sleepBackpressure)
  else
    (s, .pull (min opts.maxBatchSize (max 1 (opts.maxConcurrent - s.inFlight)))
         (max 50 opts.pollIntervalMs))

/-- Lines 127–152 of `loop`: the circuit-breaker gate.  With the circuit
open, the iteration sleeps unless `Date.now() - lastFailureAt >
circuitResetMs`, in which case it transitions to half-open
(`circuitOpen = false`) and proceeds to the pull gate. -/
def loopGate (opts : WorkerOpts) (now : Nat) (s : WState) :
    WState × LoopAction :=
  if s.circuitOpen then
    if now - s.lastFailureAt > opts.circuitResetMs then
      gateAfterCircuit opts { s with circuitOpen := false }
    else (s, .sleepCircuit)
  else gateAfterCircuit opts s

/-- Number of queue pulls an iteration's action performs. -/
def pullsOf : LoopAction → Nat
  | .pull _ _ => 1
  | _ => 0

/-- A configuration of the concurrently running worker: the shared mutable
state, the idempotency store, and the number of dispatched-but-unsettled
processing tasks. -/
structure Config where
  ws : WState
  store : List String
  pending : Nat
  deriving Repr, DecidableEq

/-- The freshly constructed worker: all counters zero, no claimed keys, no
pending tasks. -/
def initConfig : Config := ⟨{}, [], 0⟩

/-- Interleaving semantics of the dispatch loop and its processing tasks,
at the granularity relevant to the shared counters.  `dispatch` is the
loop's guarded fire-and-forget start of `process` (the guard is line 164's
`if (this.inFlight >= maxConcurrent) break` — the synchronous `inFlight++`
of line 192 happens before the first `await`); `settle` is the rest of one
`process` call, including the `finally` block's `inFlight--`, applied to the
then-current shared state; `pullFailure` is the loop's `catch` around
`queue.pull` (`recordFailure`); `idleDecay` is the empty-batch backoff decay
of line 156. -/
inductive WStep (opts : WorkerOpts) (hasIdem : Bool) : Config → Config → Prop
  | dispatch (c : Config) (h : c.ws.inFlight < opts.maxConcurrent) :
      WStep opts hasIdem c
        ⟨{ c.ws with inFlight := c.ws.inFlight + 1 }, c.store, c.pending + 1⟩
  | settle (c : Config) (env : ProcEnv) (m : Msg) (h : 0 < c.pending) :
      WStep opts hasIdem c
        ⟨{ (processBody opts hasIdem env m c.ws c.store).1 with
             inFlight := c.ws.inFlight - 1 },
         (processBody opts hasIdem env m c.ws c.store).2.1, c.pending - 1⟩
  | pullFailure (c : Config) (now : Nat) :
      WStep opts hasIdem c ⟨recordFailure opts now c.ws, c.store, c.pending⟩
  | idleDecay (c : Config) :
      WStep opts hasIdem c
        ⟨{ c.ws with backoffMs := c.ws.backoffMs * 9 / 10 }, c.store,
         c.pending⟩

/-- Reachability of a configuration from the freshly constructed worker. -/
def Reachable (opts : WorkerOpts) (hasIdem : Bool) (c : Config) : Prop :=
  Relation.ReflTransGen (WStep opts hasIdem) initConfig c


/-! ## Helper lemmas -/

theorem recordFailure_inFlight (opts : WorkerOpts) (now : Nat) (s : WState) :
    (recordFailure opts now s).inFlight = s.inFlight := by
  simp only [recordFailure]
  split <;> rfl

theorem onProcessError_inFlight (opts : WorkerOpts) (hasIdem : Bool)
    (env : ProcEnv) (m : Msg) (e : PErr) (s : WState) :
    (onProcessError opts hasIdem env m e s).1.inFlight = s.inFlight := by
  simp only [onProcessError]
  repeat' split
  all_goals simp [recordFailure_inFlight]

theorem handlerPhase_inFlight (opts : WorkerOpts) (hasIdem : Bool)
    (env : ProcEnv) (m : Msg) (s : WState) :
    (handlerPhase opts hasIdem env m s).1.inFlight = s.inFlight := by
  simp only [handlerPhase]
  repeat' split
  all_goals simp [successState, onProcessError_inFlight]

theorem processBody_inFlight (opts : WorkerOpts) (hasIdem : Bool)
    (env : ProcEnv) (m : Msg) (s : WState) (store : List String) :
    (processBody opts hasIdem env m s store).1.inFlight = s.inFlight := by
  simp only [processBody]
  repeat' split
  all_goals simp [handlerPhase_inFlight, onProcessError_inFlight]

theorem process_inFlight (opts : WorkerOpts) (hasIdem : Bool)
    (env : ProcEnv) (m : Msg) (s : WState) (store : List String) :
    (process opts hasIdem env m s store).1.inFlight = s.inFlight := by
  unfold process
  simp only [processBody_inFlight]
  omega

/-! ## C4: requeue with incremented attempts and exponential-backoff delay -/

/-- C4: for every message whose handler fails with `attempts + 1 < maxAttempts`
(the attempt having actually reached the handler — no duplicate skip and no
`acquire` rejection), the processing attempt performs exactly one requeue, of
the message with its `attempts` field incremented to `attempts + 1`, and with
delay `min(60000, floor(requeueDelayMsBase * 2^min(6, attempts' - 1)) + jitter)`
where `attempts'` is the incremented (1-indexed) attempt count and the jitter
is some value in `[0, 100)`. -/
theorem C4_requeue_backoff (opts : WorkerOpts) (hasIdem : Bool) (env : ProcEnv)
    (m : Msg) (s : WState) (store : List String)
    (hH : env.handlerOk = false)
    (hA : hasIdem = true → env.acquireThrows = false ∧
          store.contains (idKey opts m) = false)
    (hMax : m.attemptCount + 1 < opts.maxAttempts)
    (hJ : env.jitter < 100) :
    (process opts hasIdem env m s store).2.2.filter isRequeue =
      [Effect.requeue { m with attempts := some (m.attemptCount + 1) }
        (min 60000 (opts.requeueDelayMs *
          2 ^ (min 6 ((m.attemptCount + 1) - 1)) + env.jitter))] := by
  have hnot : ¬ (m.attemptCount + 1 ≥ opts.maxAttempts) := Nat.not_le.mpr hMax
  cases hI : hasIdem
  · simp [process, processBody, handlerPhase, onProcessError, hH, hnot,
      exponentialBackoff, isRequeue]
  · obtain ⟨hAcq, hFresh⟩ := hA hI
    have hmem : idKey opts m ∉ store := by simpa using hFresh
    simp [process, processBody, handlerPhase, onProcessError, hH, hAcq, hmem,
      hnot, exponentialBackoff, isRequeue]

/-- Witness for C4 at a concrete input. -/
theorem C4_requeue_backoff_witness :
    (process { name := "w" } false { handlerOk := false, jitter := 7 }
        { id := "a" } {} []).2.2.filter isRequeue =
      [Effect.requeue { id := "a", attempts := some 1 } 2007] := by
  have h := C4_requeue_backoff { name := "w" } false
      { handlerOk := false, jitter := 7 } { id := "a" } {} []
      rfl (by intro h; cases h) (by decide) (by decide)
  simpa using h

/-! ## C5: backoff monotonicity (corrected) -/

/-- C5 counterexample: the claim quantifies over every pair of jitter values,
but with base delay 0, attempt 1 with jitter 99 gets delay 99 while attempt 2
with jitter 0 gets delay 0, so the delay is not monotone across attempts for
every choice of jitters. -/
theorem C5_counterexample :
    1 < 2 ∧ 99 < 100 ∧ 0 < 100 ∧
      exponentialBackoff 2 0 0 < exponentialBackoff 1 0 99 := by decide

/-- C5 (amended): for every base delay and attempt numbers `k < k'`
(1-indexed), with the same jitter value in `[0, 100)` drawn for both
attempts, the computed delay for `k'` is at least the delay for `k`; and
every computed delay is at most 60000 ms. -/
theorem C5_backoff_monotone_bounded (base j k k' : Nat)
    (hk : 1 ≤ k) (hkk : k < k') (hj : j < 100) :
    exponentialBackoff k base j ≤ exponentialBackoff k' base j ∧
      (∀ a b j2 : Nat, exponentialBackoff a b j2 ≤ 60000) := by
  constructor
  · unfold exponentialBackoff
    apply min_le_min (Nat.le_refl _)
    apply Nat.add_le_add_right
    apply Nat.mul_le_mul_left
    apply Nat.pow_le_pow_right (by norm_num)
    exact min_le_min (Nat.le_refl 6) (Nat.sub_le_sub_right (Nat.le_of_lt hkk) 1)
  · intro a b j2
    exact Nat.min_le_left _ _

/-- Witness for C5 (amended) at a concrete input. -/
theorem C5_backoff_monotone_bounded_witness :
    exponentialBackoff 1 2000 50 ≤ exponentialBackoff 2 2000 50 ∧
      (∀ a b j2 : Nat, exponentialBackoff a b j2 ≤ 60000) :=
  C5_backoff_monotone_bounded 2000 50 1 2 (by decide) (by decide) (by decide)

/-! ## C9: success path -/

/-- C9: when the handler completes successfully (with an idempotency store
configured, a fresh claim, and the collaborator calls resolving), the attempt
acknowledges the message, records idempotency success, sets
`consecutiveFailures` to `max(0, consecutiveFailures - 1)` (truncated `Nat`
subtraction), sets `backoffMs` to `floor(backoffMs * 0.7)`, and emits a
`processed` event carrying the message. -/
theorem C9_success_path (opts : WorkerOpts) (env : ProcEnv) (m : Msg)
    (s : WState) (store : List String)
    (hH : env.handlerOk = true) (hAck : env.okAckOk = true)
    (hSR : env.setResultOk = true) (hAcq : env.acquireThrows = false)
    (hFresh : store.contains (idKey opts m) = false) :
    (process opts true env m s store).1 =
      { s with consecutiveFailures := s.consecutiveFailures - 1
               backoffMs := s.backoffMs * 7 / 10 } ∧
    (process opts true env m s store).2.2 =
      [.acquire (idKey opts m) opts.idempotencyTtlSec, .handlerCall m,
       .ack m, .setResult (idKey opts m) .success, .emitProcessed m] := by
  have hmem : idKey opts m ∉ store := by simpa using hFresh
  cases s
  simp [process, processBody, handlerPhase, successState, hH, hAck, hSR,
    hAcq, hmem]

/-- Witness for C9 at a concrete input. -/
theorem C9_success_path_witness :
    (process { name := "w" } true {} { id := "a" }
        { backoffMs := 10, consecutiveFailures := 3 } []).1 =
      { backoffMs := 7, consecutiveFailures := 2 } ∧
    (process { name := "w" } true {} { id := "a" }
        { backoffMs := 10, consecutiveFailures := 3 } []).2.2 =
      [.acquire "w:a" 86400, .handlerCall { id := "a" }, .ack { id := "a" },
       .setResult "w:a" .success, .emitProcessed { id := "a" }] := by
  have h := C9_success_path { name := "w" } {} { id := "a" }
      { backoffMs := 10, consecutiveFailures := 3 } [] rfl rfl rfl rfl rfl
  simpa using h

/-! ## C10: no idempotency store injected -/

/-- C10: when no idempotency store is injected, the processing attempt makes
no `acquire` call and no `setResult` call, leaves the store untouched, and
invokes the handler exactly once — as its very first action — on every
delivery, so duplicate suppression is entirely disabled. -/
theorem C10_no_store (opts : WorkerOpts) (env : ProcEnv) (m : Msg)
    (s : WState) (store : List String) :
    (process opts false env m s store).2.2.countP isAcquire = 0 ∧
    (process opts false env m s store).2.2.countP isSetResult = 0 ∧
    (process opts false env m s store).2.2.countP isHandlerCall = 1 ∧
    (process opts false env m s store).2.2.head? = some (.handlerCall m) ∧
    (process opts false env m s store).2.1 = store := by
  rcases Nat.lt_or_ge (m.attemptCount + 1) opts.maxAttempts with hlt | hge
  · have hnot : ¬ (m.attemptCount + 1 ≥ opts.maxAttempts) := Nat.not_le.mpr hlt
    cases hH : env.handlerOk <;> cases hO : env.okAckOk <;>
      simp [process, processBody, handlerPhase, onProcessError, hnot, hH, hO,
        isAcquire, isSetResult, isHandlerCall]
  · cases hH : env.handlerOk <;> cases hO : env.okAckOk <;>
      cases hD : env.dlqAckOk <;>
      simp [process, processBody, handlerPhase, onProcessError, hge, hH, hO,
        hD, isAcquire, isSetResult, isHandlerCall]

/-! ## C2: per-attempt effect counts (corrected) -/

/-- C2 counterexample: when the success-path `queue.ack` call itself rejects
(`okAckOk = false`) on a message at its last allowed attempt, the attempt
routes through `onProcessError` and acks again on the dead-letter path, so
two acknowledge-or-requeue calls are made in a single processing attempt. -/
theorem C2_counterexample :
    (process { name := "w" } false { okAckOk := false }
        { id := "a", attempts := some 4 } {} []).2.2.countP isAckOrRequeue = 2 ∧
    ¬ ((process { name := "w" } false { okAckOk := false }
        { id := "a", attempts := some 4 } {} []).2.2.countP isAckOrRequeue
        = 1) := by
  constructor <;> decide

/-- C2 (amended): for every message and every single processing attempt in
which the queue and idempotency-store calls themselves resolve (the handler
and `acquire` may still reject), exactly one of `queue.ack` or
`queue.requeue` is called, exactly one idempotency `acquire` call is made
when a store is configured (and none otherwise), and at most one `setResult`
call is made. -/
theorem C2_effect_counts (opts : WorkerOpts) (hasIdem : Bool) (env : ProcEnv)
    (m : Msg) (s : WState) (store : List String)
    (hdup : env.dupAckOk = true) (hok : env.okAckOk = true)
    (hsr : env.setResultOk = true) (hdl : env.dlqAckOk = true)
    (hds : env.dlqSetResultOk = true) :
    (process opts hasIdem env m s store).2.2.countP isAckOrRequeue = 1 ∧
    (process opts hasIdem env m s store).2.2.countP isAcquire =
      (if hasIdem then 1 else 0) ∧
    (process opts hasIdem env m s store).2.2.countP isSetResult ≤ 1 := by
  rcases Nat.lt_or_ge (m.attemptCount + 1) opts.maxAttempts with hlt | hge
  · have hcond : ¬ (m.attemptCount + 1 ≥ opts.maxAttempts) := Nat.not_le.mpr hlt
    cases hasIdem <;> cases hA : env.acquireThrows <;>
      by_cases hC : idKey opts m ∈ store <;> cases hH : env.handlerOk <;>
      simp [process, processBody, handlerPhase, onProcessError, hdup, hok,
        hsr, hdl, hds, hA, hC, hH, hcond, isAckOrRequeue, isAcquire,
        isSetResult]
  · cases hasIdem <;> cases hA : env.acquireThrows <;>
      by_cases hC : idKey opts m ∈ store <;> cases hH : env.handlerOk <;>
      simp [process, processBody, handlerPhase, onProcessError, hdup, hok,
        hsr, hdl, hds, hA, hC, hH, hge, isAckOrRequeue, isAcquire,
        isSetResult]

/-- Witness for C2 (amended) at a concrete input. -/
theorem C2_effect_counts_witness :
    (process { name := "w" } true {} { id := "a" } {} []).2.2.countP
      isAckOrRequeue = 1 ∧
    (process { name := "w" } true {} { id := "a" } {} []).2.2.countP
      isAcquire = (if true then 1 else 0) ∧
    (process { name := "w" } true {} { id := "a" } {} []).2.2.countP
      isSetResult ≤ 1 :=
  C2_effect_counts { name := "w" } true {} { id := "a" } {} []
    rfl rfl rfl rfl rfl

/-! ## C3: dead-letter path (corrected) -/

/-- C3 counterexample: a message that arrives with `attempts = 5` under the
default `maxAttempts = 5` satisfies the claim's hypothesis
`attempts + 1 ≥ maxAttempts`, but the dead-letter event carries
`attempts = 6 ≠ maxAttempts`. -/
theorem C3_counterexample :
    ({ name := "w" } : WorkerOpts).maxAttempts ≤
      ({ id := "a", attempts := some 5 } : Msg).attemptCount + 1 ∧
    (process { name := "w" } true { handlerOk := false }
        { id := "a", attempts := some 5 } {} []).2.2 =
      [.acquire "w:a" 86400, .handlerCall { id := "a", attempts := some 5 },
       .ack { id := "a", attempts := some 5 }, .setResult "w:a" .failed,
       .emitDeadLetter { id := "a", attempts := some 5 } .handlerE 6] ∧
    (6 : Nat) ≠ ({ name := "w" } : WorkerOpts).maxAttempts := by
  refine ⟨by decide, by decide, by decide⟩

/-- C3 (amended): for every message whose handler fails when
`attempts + 1 ≥ maxAttempts` (the attempt having reached the handler through
a fresh idempotency claim, with the queue/store calls resolving), the worker
acknowledges the original message exactly once, records the idempotency
outcome as `failed`, emits a dead-letter event carrying the message, the
error, and `attempts = (message.attempts ?? 0) + 1` — which equals
`maxAttempts` when the message had exactly `maxAttempts - 1` prior
attempts — and performs no requeue.  Moreover (only-discard-path): every
attempt whose trace acks without a `processed` event while the handler was
invoked also carries a dead-letter event. -/
theorem C3_dead_letter (opts : WorkerOpts) (env : ProcEnv) (m : Msg)
    (s : WState) (store : List String)
    (hH : env.handlerOk = false)
    (hAcq : env.acquireThrows = false)
    (hFresh : store.contains (idKey opts m) = false)
    (hge : opts.maxAttempts ≤ m.attemptCount + 1)
    (hdl : env.dlqAckOk = true) (hds : env.dlqSetResultOk = true) :
    (process opts true env m s store).2.2 =
      [.acquire (idKey opts m) opts.idempotencyTtlSec, .handlerCall m, .ack m,
       .setResult (idKey opts m) .failed,
       .emitDeadLetter m .handlerE (m.attemptCount + 1)] ∧
    (process opts true env m s store).2.2.countP isAck = 1 ∧
    (process opts true env m s store).2.2.countP isRequeue = 0 ∧
    (∀ (hasIdem' : Bool) (env' : ProcEnv) (m' : Msg) (s' : WState)
       (store' : List String),
       env'.dupAckOk = true → env'.okAckOk = true →
       env'.setResultOk = true → env'.dlqAckOk = true →
       env'.dlqSetResultOk = true →
       (process opts hasIdem' env' m' s' store').2.2.countP isAck ≠ 0 →
       (process opts hasIdem' env' m' s' store').2.2.countP
         isProcessedEvent = 0 →
       (process opts hasIdem' env' m' s' store').2.2.countP
         isHandlerCall ≠ 0 →
       (process opts hasIdem' env' m' s' store').2.2.countP
         isDeadLetterEvent ≠ 0) := by
  have hmem : idKey opts m ∉ store := by simpa using hFresh
  refine ⟨?_, ?_, ?_, ?_⟩
  · simp [process, processBody, handlerPhase, onProcessError, hH, hAcq, hmem,
      hge, hdl, hds]
  · simp [process, processBody, handlerPhase, onProcessError, hH, hAcq, hmem,
      hge, hdl, hds, isAck]
  · simp [process, processBody, handlerPhase, onProcessError, hH, hAcq, hmem,
      hge, hdl, hds, isRequeue]
  · intro hasIdem' env' m' s' store' h1 h2 h3 h4 h5
    rcases Nat.lt_or_ge (m'.attemptCount + 1) opts.maxAttempts with hlt | hge'
    · have hcond : ¬ (m'.attemptCount + 1 ≥ opts.maxAttempts) :=
        Nat.not_le.mpr hlt
      cases hasIdem' <;> cases hA' : env'.acquireThrows <;>
        by_cases hC' : idKey opts m' ∈ store' <;>
        cases hH' : env'.handlerOk <;>
        simp [process, processBody, handlerPhase, onProcessError, h1, h2, h3,
          h4, h5, hA', hC', hH', hcond, isAck, isProcessedEvent,
          isHandlerCall, isDeadLetterEvent]
    · cases hasIdem' <;> cases hA' : env'.acquireThrows <;>
        by_cases hC' : idKey opts m' ∈ store' <;>
        cases hH' : env'.handlerOk <;>
        simp [process, processBody, handlerPhase, onProcessError, h1, h2, h3,
          h4, h5, hA', hC', hH', hge', isAck, isProcessedEvent,
          isHandlerCall, isDeadLetterEvent]

/-- Witness for C3 (amended) at a concrete input. -/
theorem C3_dead_letter_witness :
    (process { name := "w" } true { handlerOk := false }
        { id := "a", attempts := some 4 } {} []).2.2 =
      [.acquire "w:a" 86400, .handlerCall { id := "a", attempts := some 4 },
       .ack { id := "a", attempts := some 4 }, .setResult "w:a" .failed,
       .emitDeadLetter { id := "a", attempts := some 4 } .handlerE 5] ∧
    (process { name := "w" } true { handlerOk := false }
        { id := "a", attempts := some 4 } {} []).2.2.countP isAck = 1 ∧
    (process { name := "w" } true { handlerOk := false }
        { id := "a", attempts := some 4 } {} []).2.2.countP isRequeue = 0 ∧
    (∀ (hasIdem' : Bool) (env' : ProcEnv) (m' : Msg) (s' : WState)
       (store' : List String),
       env'.dupAckOk = true → env'.okAckOk = true →
       env'.setResultOk = true → env'.dlqAckOk = true →
       env'.dlqSetResultOk = true →
       (process { name := "w" } hasIdem' env' m' s' store').2.2.countP
         isAck ≠ 0 →
       (process { name := "w" } hasIdem' env' m' s' store').2.2.countP
         isProcessedEvent = 0 →
       (process { name := "w" } hasIdem' env' m' s' store').2.2.countP
         isHandlerCall ≠ 0 →
       (process { name := "w" } hasIdem' env' m' s' store').2.2.countP
         isDeadLetterEvent ≠ 0) := by
  have h := C3_dead_letter { name := "w" } { handlerOk := false }
      { id := "a", attempts := some 4 } {} [] rfl rfl rfl (by decide) rfl rfl
  simpa using h

/-! ## C6: idempotency deduplication -/

/-- C6: processing is deduplicated by the claim on `(workerName, message.id)`:
with a store configured, `acquire` is called before the handler; running the
per-message routine for a fresh message and then again for a message with the
same id (within the TTL window, the store still holding the key) yields
exactly one handler invocation in the first attempt and none in the second —
the second attempt's trace is exactly the `acquire` call followed by an
immediate acknowledge, and it changes neither the worker state (no failure
recorded) nor the store. -/
theorem C6_duplicate_suppression (opts : WorkerOpts) (env1 env2 : ProcEnv)
    (m1 m2 : Msg) (s : WState) (store : List String)
    (hid : m2.id = m1.id)
    (hA1 : env1.acquireThrows = false) (hA2 : env2.acquireThrows = false)
    (hdup2 : env2.dupAckOk = true)
    (hFresh : store.contains (idKey opts m1) = false) :
    (process opts true env1 m1 s store).2.2.countP isHandlerCall = 1 ∧
    (process opts true env2 m2 (process opts true env1 m1 s store).1
        (process opts true env1 m1 s store).2.1).2.2 =
      [.acquire (idKey opts m2) opts.idempotencyTtlSec, .ack m2] ∧
    (process opts true env2 m2 (process opts true env1 m1 s store).1
        (process opts true env1 m1 s store).2.1).1 =
      (process opts true env1 m1 s store).1 ∧
    (process opts true env2 m2 (process opts true env1 m1 s store).1
        (process opts true env1 m1 s store).2.1).2.1 =
      (process opts true env1 m1 s store).2.1 := by
  have hmem : idKey opts m1 ∉ store := by simpa using hFresh
  have hkey : idKey opts m2 = idKey opts m1 := by simp [idKey, hid]
  have hstore1 : (process opts true env1 m1 s store).2.1 =
      idKey opts m1 :: store := by
    simp [process, processBody, hA1, hmem]
  have hmem2 : idKey opts m2 ∈ (process opts true env1 m1 s store).2.1 := by
    rw [hstore1, hkey]
    exact List.mem_cons_self _ _
  have h1 : (process opts true env1 m1 s store).2.2.countP isHandlerCall
      = 1 := by
    rcases Nat.lt_or_ge (m1.attemptCount + 1) opts.maxAttempts with hlt | hge
    · have hcond : ¬ (m1.attemptCount + 1 ≥ opts.maxAttempts) :=
        Nat.not_le.mpr hlt
      cases hH : env1.handlerOk <;> cases hO : env1.okAckOk <;>
        cases hS : env1.setResultOk <;>
        simp [process, processBody, handlerPhase, onProcessError, hA1, hmem,
          hH, hO, hS, hcond, isHandlerCall]
    · cases hH : env1.handlerOk <;> cases hO : env1.okAckOk <;>
        cases hS : env1.setResultOk <;> cases hD : env1.dlqAckOk <;>
        cases hDS : env1.dlqSetResultOk <;>
        simp [process, processBody, handlerPhase, onProcessError, hA1, hmem,
          hH, hO, hS, hD, hDS, hge, isHandlerCall]
  refine ⟨h1, ?_, ?_, ?_⟩ <;>
  · rw [hstore1]
    generalize (process opts true env1 m1 s store).1 = s1
    simp [process, processBody, hA2, hdup2, hkey]

/-- Witness for C6 at a concrete input. -/
theorem C6_duplicate_suppression_witness :
    (process { name := "w" } true {} { id := "a" } {} []).2.2.countP
      isHandlerCall = 1 ∧
    (process { name := "w" } true {} { id := "a" }
        (process { name := "w" } true {} { id := "a" } {} []).1
        (process { name := "w" } true {} { id := "a" } {} []).2.1).2.2 =
      [.acquire "w:a" 86400, .ack { id := "a" }] ∧
    (process { name := "w" } true {} { id := "a" }
        (process { name := "w" } true {} { id := "a" } {} []).1
        (process { name := "w" } true {} { id := "a" } {} []).2.1).1 =
      (process { name := "w" } true {} { id := "a" } {} []).1 ∧
    (process { name := "w" } true {} { id := "a" }
        (process { name := "w" } true {} { id := "a" } {} []).1
        (process { name := "w" } true {} { id := "a" } {} []).2.1).2.1 =
      (process { name := "w" } true {} { id := "a" } {} []).2.1 := by
  have h := C6_duplicate_suppression { name := "w" } {} {} { id := "a" }
      { id := "a" } {} [] rfl rfl rfl rfl rfl
  simpa using h

/-! ## C7: circuit breaker -/

/-- C7: the circuit opens whenever `consecutiveFailures` reaches
`circuitFailureThreshold` (every recorded failure increments the counter and
sets `circuitOpen` once the threshold is met); while the circuit is open and
less than `circuitResetMs` has elapsed since the last recorded failure, the
loop iteration performs no queue pull (it sleeps); once strictly more than
`circuitResetMs` has elapsed (and the backpressure gate is clear), the
iteration transitions to half-open (`circuitOpen = false`) and attempts
exactly one pull. -/
theorem C7_circuit_breaker (opts : WorkerOpts) (now : Nat) (s : WState) :
    ((recordFailure opts now s).consecutiveFailures =
        s.consecutiveFailures + 1 ∧
     (opts.circuitFailureThreshold ≤ s.consecutiveFailures + 1 →
       (recordFailure opts now s).circuitOpen = true)) ∧
    (s.circuitOpen = true → now - s.lastFailureAt < opts.circuitResetMs →
       loopGate opts now s = (s, .sleepCircuit)) ∧
    (s.circuitOpen = true → opts.circuitResetMs < now - s.lastFailureAt →
       s.inFlight < opts.maxConcurrent →
       (loopGate opts now s).1 = { s with circuitOpen := false } ∧
       pullsOf (loopGate opts now s).2 = 1) := by
  refine ⟨⟨?_, ?_⟩, ?_, ?_⟩
  · simp only [recordFailure]
    split <;> rfl
  · intro h
    simp [recordFailure, h]
  · intro hopen hlt
    have hnot : ¬ (now - s.lastFailureAt > opts.circuitResetMs) := by omega
    simp [loopGate, hopen, hnot]
  · intro hopen hgt hif
    have hnot : ¬ (s.inFlight ≥ opts.maxConcurrent) := Nat.not_le.mpr hif
    simp [loopGate, gateAfterCircuit, hopen, hgt, hnot, pullsOf]

/-- Witness for C7 at concrete inputs: blocked 4000ms after the failure,
half-open with one pull 19001ms after it, and opening at the threshold. -/
theorem C7_circuit_breaker_witness :
    (loopGate { name := "w" } 5000
        { circuitOpen := true, lastFailureAt := 1000 } =
      ({ circuitOpen := true, lastFailureAt := 1000 }, .sleepCircuit)) ∧
    ((loopGate { name := "w" } 20001
        { circuitOpen := true, lastFailureAt := 1000 }).1 =
      { circuitOpen := false, lastFailureAt := 1000 } ∧
     pullsOf (loopGate { name := "w" } 20001
        { circuitOpen := true, lastFailureAt := 1000 }).2 = 1) ∧
    (recordFailure { name := "w" } 7
        { consecutiveFailures := 19 }).circuitOpen = true := by
  refine ⟨?_, ?_, ?_⟩
  · exact (C7_circuit_breaker { name := "w" } 5000
      { circuitOpen := true, lastFailureAt := 1000 }).2.1 rfl (by decide)
  · exact (C7_circuit_breaker { name := "w" } 20001
      { circuitOpen := true, lastFailureAt := 1000 }).2.2 rfl (by decide)
      (by decide)
  · exact (C7_circuit_breaker { name := "w" } 7
      { consecutiveFailures := 19 }).1.2 (by decide)

/-! ## C1: the inFlight invariant -/

theorem wstep_preserves_inv (opts : WorkerOpts) (hasIdem : Bool)
    (c c' : Config) (hstep : WStep opts hasIdem c c')
    (ih : c.ws.inFlight ≤ opts.maxConcurrent ∧ c.ws.inFlight = c.pending) :
    c'.ws.inFlight ≤ opts.maxConcurrent ∧ c'.ws.inFlight = c'.pending := by
  obtain ⟨ih1, ih2⟩ := ih
  cases hstep with
  | dispatch h =>
    refine ⟨h, ?_⟩
    show c.ws.inFlight + 1 = c.pending + 1
    omega
  | settle env m h =>
    refine ⟨?_, ?_⟩
    · show c.ws.inFlight - 1 ≤ opts.maxConcurrent
      omega
    · show c.ws.inFlight - 1 = c.pending - 1
      omega
  | pullFailure now =>
    constructor
    · show (recordFailure opts now c.ws).inFlight ≤ opts.maxConcurrent
      rw [recordFailure_inFlight]
      omega
    · show (recordFailure opts now c.ws).inFlight = c.pending
      rw [recordFailure_inFlight]
      omega
  | idleDecay =>
    exact ⟨ih1, ih2⟩

/-- C1: in every reachable configuration of the worker,
`inFlight ≤ maxConcurrent` (and `inFlight ≥ 0` holds by the `Nat` model);
`inFlight` always equals the number of dispatched-but-unsettled tasks, so
each settle decrements the counter that its dispatch incremented exactly
once; dispatching is guarded by `inFlight < maxConcurrent` (the `WStep.dispatch`
guard, line 164 of the source), and one full `process` call leaves `inFlight`
unchanged on every exit path (increment before dispatch, decrement in the
`finally`). -/
theorem C1_inflight_invariant (opts : WorkerOpts) (hasIdem : Bool)
    (c : Config) (h : Reachable opts hasIdem c) :
    c.ws.inFlight ≤ opts.maxConcurrent ∧ c.ws.inFlight = c.pending ∧
    (∀ (env : ProcEnv) (m : Msg) (s : WState) (store : List String),
      (process opts hasIdem env m s store).1.inFlight = s.inFlight) := by
  have main : c.ws.inFlight ≤ opts.maxConcurrent ∧
      c.ws.inFlight = c.pending := by
    induction h with
    | refl => exact ⟨Nat.zero_le _, rfl⟩
    | tail _ hstep ih => exact wstep_preserves_inv _ _ _ _ hstep ih
  exact ⟨main.1, main.2, fun env m s store => process_inFlight ..⟩

/-- Witness for C1 at the initial configuration. -/
theorem C1_inflight_invariant_witness :
    initConfig.ws.inFlight ≤ ({ name := "w" } : WorkerOpts).maxConcurrent ∧
    initConfig.ws.inFlight = initConfig.pending ∧
    (∀ (env : ProcEnv) (m : Msg) (s : WState) (store : List String),
      (process { name := "w" } false env m s store).1.inFlight =
        s.inFlight) :=
  C1_inflight_invariant { name := "w" } false initConfig
    Relation.ReflTransGen.refl

/-! ## C8: best-effort prioritization -/

theorem scoreAll_ok (f : Msg → Except Unit Int) (g : Msg → Int) :
    ∀ (l : List Msg), (∀ m ∈ l, f m = .ok (g m)) →
      scoreAll f l = .ok (l.map (fun m => (m, g m)))
  | [], _ => rfl
  | a :: l, h => by
    have ha := h a (List.mem_cons_self _ _)
    have ih := scoreAll_ok f g l (fun m hm => h m (List.mem_cons_of_mem _ hm))
    simp [scoreAll, ha, ih]

theorem scoreAll_error (f : Msg → Except Unit Int) :
    ∀ (l : List Msg), (∃ m ∈ l, f m = .error ()) →
      scoreAll f l = .error ()
  | [], h => by
    rcases h with ⟨m, hm, _⟩
    exact absurd hm (List.not_mem_nil m)
  | a :: l, h => by
    cases hfa : f a with
    | error e =>
      cases e
      simp [scoreAll, hfa]
    | ok v =>
      rcases h with ⟨m, hm, hme⟩
      rcases List.mem_cons.mp hm with rfl | hm2
      · rw [hfa] at hme
        cases hme
      · have ih := scoreAll_error f l ⟨m, hm2, hme⟩
        simp [scoreAll, hfa, ih]

/-- C8: with a scorer configured whose calls all resolve (scores given by
`g`), the batch returned by the scoring step is a permutation of the input
sorted into descending score order with no warning; if any scoring call
rejects, the batch is returned in its original FIFO order with a warning and
the error does not escape (the function still returns); with no scorer the
batch passes through unchanged. -/
theorem C8_best_effort_scoring (f : Msg → Except Unit Int) (g : Msg → Int)
    (msgs : List Msg) :
    ((∀ m ∈ msgs, f m = .ok (g m)) →
       (scoreBatch (some f) msgs).1.Perm msgs ∧
       (scoreBatch (some f) msgs).2 = false ∧
       (scoreBatch (some f) msgs).1.Pairwise (fun a b => g b ≤ g a)) ∧
    ((∃ m ∈ msgs, f m = .error ()) →
       scoreBatch (some f) msgs = (msgs, true)) ∧
    scoreBatch none msgs = (msgs, false) := by
  refine ⟨?_, ?_, rfl⟩
  · intro hall
    have hmap := scoreAll_ok f g msgs hall
    have htrans : ∀ (a b c : Msg × Int),
        (fun x y : Msg × Int => decide (y.2 ≤ x.2)) a b →
        (fun x y : Msg × Int => decide (y.2 ≤ x.2)) b c →
        (fun x y : Msg × Int => decide (y.2 ≤ x.2)) a c := by
      intro a b c hab hbc
      simp only [decide_eq_true_eq] at *
      exact le_trans hbc hab
    have htotal : ∀ (a b : Msg × Int),
        ((fun x y : Msg × Int => decide (y.2 ≤ x.2)) a b ||
         (fun x y : Msg × Int => decide (y.2 ≤ x.2)) b a) = true := by
      intro a b
      simp only [Bool.or_eq_true, decide_eq_true_eq]
      exact le_total b.2 a.2
    refine ⟨?_, ?_, ?_⟩
    · have h1 := List.mergeSort_perm (msgs.map (fun m => (m, g m)))
        (fun x y : Msg × Int => decide (y.2 ≤ x.2))
      have h2 := h1.map Prod.fst
      simp only [scoreBatch, hmap]
      simpa [List.map_map, Function.comp_def] using h2
    · simp [scoreBatch, hmap]
    · have hsorted := List.sorted_mergeSort htrans htotal
        (msgs.map (fun m => (m, g m)))
      have hmemform : ∀ p ∈ (msgs.map (fun m => (m, g m))).mergeSort
          (fun x y : Msg × Int => decide (y.2 ≤ x.2)), p.2 = g p.1 := by
        intro p hp
        have hp2 : p ∈ msgs.map (fun m => (m, g m)) :=
          (List.mergeSort_perm _ _).mem_iff.mp hp
        rcases List.mem_map.mp hp2 with ⟨m, _, rfl⟩
        rfl
      simp only [scoreBatch, hmap]
      rw [List.pairwise_map]
      refine List.Pairwise.imp_of_mem ?_ hsorted
      intro p q hp hq hle
      have h1 := hmemform p hp
      have h2 := hmemform q hq
      simp only [decide_eq_true_eq] at hle
      omega
  · intro hex
    have hmap := scoreAll_error f msgs hex
    simp [scoreBatch, hmap]

/-- Witness for C8 at concrete inputs: an all-resolving scorer (score =
id length) sorts descending; a rejecting scorer degrades to FIFO order with
a warning. -/
theorem C8_best_effort_scoring_witness :
    ((scoreBatch (some (fun m => .ok (Int.ofNat m.id.length)))
        [{ id := "a" }, { id := "ccc" }, { id := "bb" }]).1.Perm
        [{ id := "a" }, { id := "ccc" }, { id := "bb" }] ∧
     (scoreBatch (some (fun m => .ok (Int.ofNat m.id.length)))
        [{ id := "a" }, { id := "ccc" }, { id := "bb" }]).2 = false ∧
     (scoreBatch (some (fun m => .ok (Int.ofNat m.id.length)))
        [{ id := "a" }, { id := "ccc" }, { id := "bb" }]).1.Pairwise
        (fun a b => Int.ofNat b.id.length ≤ Int.ofNat a.id.length)) ∧
    scoreBatch (some (fun m : Msg => (.error () : Except Unit Int)))
      [{ id := "a" }] = ([{ id := "a" }], true) := by
  constructor
  · exact (C8_best_effort_scoring (fun m => .ok (Int.ofNat m.id.length))
      (fun m => Int.ofNat m.id.length)
      [{ id := "a" }, { id := "ccc" }, { id := "bb" }]).1
      (fun m _ => rfl)
  · exact (C8_best_effort_scoring (fun _ => .error ())
      (fun _ => 0) [{ id := "a" }]).2.1
      ⟨{ id := "a" }, List.mem_cons_self _ _, rfl⟩

end WorkerCore
